import Mathlib

/-!
Verification of the chained message-processing engine of nx-editor8
(src/processor_chain.py and src/rabbitmq_processor.py), as a shallow
embedding in Lean.

Python conventions embedded here:
* a Python value that may be None is an `Option α`; `none` is Python's
  `None`, which is also the pipeline's drop-signal;
* a Python callable that may raise is a Lean function into
  `Except ε (Option α)`: `.error e` is a raised exception, `.ok v` a
  normal return (`.ok none` returns `None`);
* a callable that the code guards with try/except never "escapes" in the
  embedding: the embedded function is total and the except-branches are
  explicit match arms.
-/

namespace NxEditor

/-- One entry of `ProcessorChain.processors`: the processor callable and the
name computed in `add_processor`.  (In the source each entry also carries an
optional description; `process` never reads it, so it is not modelled.)
A processor callable takes the current message (always a non-None value,
because `process` checks for `None` before each call) and either raises
(`.error`) or returns a new message-or-None (`.ok`). -/
abbrev StageEntry (α ε : Type) : Type := (α → Except ε (Option α)) × String

/-- Embedding of `ProcessorChain` (src/processor_chain.py, lines 19-62):
a name, the ordered list of processors added by `add_processor`, and the
optional error handler installed by `set_error_handler`.  The handler takes
`(message, error, processor_name)` and may itself raise. -/
structure ProcessorChain (α ε : Type) where
  name : String
  processors : List (StageEntry α ε)
  error_handler : Option (α → ε → String → Except ε (Option α))

/-- The `for processor, processor_name, _ in self.processors:` loop of
`ProcessorChain.process` (src/processor_chain.py lines 81-115), with
`return_result=False`.  `message` is the original input (the handler is
always called on it, line 105), `cur` is `current_message`.
* loop head: if `current_message is None` return `None` (lines 82-86);
* run the processor; on normal return the result becomes `current_message`;
* on exception: no handler -> return `None` (lines 99-102); handler raises
  -> return `None` (lines 106-110); handler returns `None` -> return `None`
  (lines 111-115); otherwise the handler's return value becomes
  `current_message` and the loop continues with the next processor. -/
def processGo (eh : Option (α → ε → String → Except ε (Option α))) (message : α) :
    List (StageEntry α ε) → Option α → Option α
  | [], cur => cur
  | (p, pname) :: rest, cur =>
    match cur with
    | none => none
    | some m =>
      match p m with
      | .ok r => processGo eh message rest r
      | .error e =>
        match eh with
        | none => none
        | some h =>
          match h message e pname with
          | .error _ => none
          | .ok none => none
          | .ok (some m2) => processGo eh message rest (some m2)

/-- `ProcessorChain.process(message)` (src/processor_chain.py lines 67-120)
with `return_result=False`: returns the processed message, or `None` when the
message was dropped or an error path ended processing.  A `None` input is
returned unchanged (the loop-head check fires on the first iteration, or the
loop body is empty). -/
def ProcessorChain.process (c : ProcessorChain α ε) (message : Option α) : Option α :=
  match message with
  | none => none
  | some m => processGo c.error_handler m c.processors (some m)

/-- Instrumentation record for one run of `process`:
`stage_calls` lists, in order, each processor invocation as
(processor name, argument it was called with); `handler_calls` lists each
error-handler invocation as (message argument, error, processor name). -/
structure ChainTrace (α ε : Type) where
  stage_calls : List (String × α)
  handler_calls : List (α × ε × String)
  deriving Repr

/-- `processGo` instrumented with a `ChainTrace`.  Identical control flow;
additionally records every processor call and every handler call. -/
def processGoT (eh : Option (α → ε → String → Except ε (Option α))) (message : α) :
    List (StageEntry α ε) → Option α → Option α × ChainTrace α ε
  | [], cur => (cur, ⟨[], []⟩)
  | (p, pname) :: rest, cur =>
    match cur with
    | none => (none, ⟨[], []⟩)
    | some m =>
      match p m with
      | .ok r =>
        let t := processGoT eh message rest r
        (t.1, ⟨(pname, m) :: t.2.stage_calls, t.2.handler_calls⟩)
      | .error e =>
        match eh with
        | none => (none, ⟨[(pname, m)], []⟩)
        | some h =>
          match h message e pname with
          | .error _ => (none, ⟨[(pname, m)], [(message, e, pname)]⟩)
          | .ok none => (none, ⟨[(pname, m)], [(message, e, pname)]⟩)
          | .ok (some m2) =>
            let t := processGoT eh message rest (some m2)
            (t.1, ⟨(pname, m) :: t.2.stage_calls, (message, e, pname) :: t.2.handler_calls⟩)

/-- `ProcessorChain.process` instrumented with a `ChainTrace`. -/
def ProcessorChain.processT (c : ProcessorChain α ε) (message : Option α) :
    Option α × ChainTrace α ε :=
  match message with
  | none => (none, ⟨[], []⟩)
  | some m => processGoT c.error_handler m c.processors (some m)

/-- The instrumented run computes the same result as `process`. -/
theorem processGoT_fst (eh : Option (α → ε → String → Except ε (Option α))) (message : α)
    (ps : List (StageEntry α ε)) (cur : Option α) :
    (processGoT eh message ps cur).1 = processGo eh message ps cur := by
  induction ps generalizing cur with
  | nil => rfl
  | cons hd rest ih =>
    obtain ⟨p, pname⟩ := hd
    cases cur with
    | none => rfl
    | some m =>
      simp only [processGoT, processGo]
      cases p m with
      | ok r => simpa using ih r
      | error e =>
        cases eh with
        | none => rfl
        | some h =>
          cases hh : h message e pname with
          | error e2 => simp [hh]
          | ok r2 =>
            cases r2 with
            | none => simp [hh]
            | some m2 => simpa [hh] using ih (some m2)

/-- From a dropped (`none`) current message, no processor runs and the result
stays dropped. -/
theorem processGoT_none (eh : Option (α → ε → String → Except ε (Option α))) (message : α)
    (ps : List (StageEntry α ε)) :
    processGoT eh message ps none = (none, ⟨[], []⟩) := by
  cases ps with
  | nil => rfl
  | cons hd rest => obtain ⟨p, pname⟩ := hd; rfl

/-- Splitting a processor list: running `xs ++ ys` runs `xs`, then runs `ys`
from the value `xs` left behind, and the traces concatenate. -/
theorem processGoT_append (eh : Option (α → ε → String → Except ε (Option α))) (message : α)
    (xs ys : List (StageEntry α ε)) (cur : Option α) :
    processGoT eh message (xs ++ ys) cur =
      ((processGoT eh message ys (processGoT eh message xs cur).1).1,
       ⟨(processGoT eh message xs cur).2.stage_calls ++
          (processGoT eh message ys (processGoT eh message xs cur).1).2.stage_calls,
        (processGoT eh message xs cur).2.handler_calls ++
          (processGoT eh message ys (processGoT eh message xs cur).1).2.handler_calls⟩) := by
  induction xs generalizing cur with
  | nil => simp [processGoT]
  | cons hd rest ih =>
    obtain ⟨p, pname⟩ := hd
    cases cur with
    | none => simp [processGoT, processGoT_none]
    | some m =>
      simp only [List.cons_append, processGoT]
      cases p m with
      | ok r => simp [ih r]
      | error e =>
        cases eh with
        | none => simp [processGoT_none]
        | some h =>
          cases hh : h message e pname with
          | error e2 => simp [hh, processGoT_none]
          | ok r2 =>
            cases r2 with
            | none => simp [hh, processGoT_none]
            | some m2 => simp [hh, ih (some m2)]

/-- Plain analogue of `processGoT_none`. -/
theorem processGo_none (eh : Option (α → ε → String → Except ε (Option α))) (message : α)
    (ps : List (StageEntry α ε)) :
    processGo eh message ps none = none := by
  cases ps with
  | nil => rfl
  | cons hd rest => obtain ⟨p, pname⟩ := hd; rfl

/-- Plain analogue of `processGoT_append`: running `xs ++ ys` runs `xs`, then
runs `ys` from the value `xs` left behind. -/
theorem processGo_append (eh : Option (α → ε → String → Except ε (Option α))) (message : α)
    (xs ys : List (StageEntry α ε)) (cur : Option α) :
    processGo eh message (xs ++ ys) cur =
      processGo eh message ys (processGo eh message xs cur) := by
  induction xs generalizing cur with
  | nil => rfl
  | cons hd rest ih =>
    obtain ⟨p, pname⟩ := hd
    cases cur with
    | none => simp [processGo, processGo_none]
    | some m =>
      simp only [List.cons_append, processGo]
      cases p m with
      | ok r => exact ih r
      | error e =>
        cases eh with
        | none => simp [processGo_none]
        | some h =>
          cases hh : h message e pname with
          | error e2 => simp [hh, processGo_none]
          | ok r2 =>
            cases r2 with
            | none => simp [hh, processGo_none]
            | some m2 => simp only [hh]; exact ih (some m2)

/-- Decidable statement of "no failing stage" for one run: starting from `m`,
every processor in the list returns normally with a non-None value (no stage
raises and none returns the drop-signal). -/
def allStagesOk : List (StageEntry α ε) → α → Bool
  | [], _ => true
  | (p, _) :: rest, m =>
    match p m with
    | .ok (some m2) => allStagesOk rest m2
    | _ => false

/-- The composition of the stage functions in declared order, defined for
runs where `allStagesOk` holds (on other runs the dead branches return a
dummy value). -/
def applyStages : List (StageEntry α ε) → α → α
  | [], m => m
  | (p, _) :: rest, m =>
    match p m with
    | .ok (some m2) => applyStages rest m2
    | _ => m

theorem processGo_of_allStagesOk (eh : Option (α → ε → String → Except ε (Option α)))
    (message : α) (ps : List (StageEntry α ε)) (m : α) (hok : allStagesOk ps m = true) :
    processGo eh message ps (some m) = some (applyStages ps m) := by
  induction ps generalizing m with
  | nil => rfl
  | cons hd rest ih =>
    obtain ⟨p, pname⟩ := hd
    simp only [processGo, applyStages]
    cases hp : p m with
    | ok r =>
      cases r with
      | none => simp [allStagesOk, hp] at hok
      | some m2 =>
        simp only [allStagesOk, hp] at hok
        exact ih m2 hok
    | error e => simp [allStagesOk, hp] at hok

/-- C1: for every message `m` and chain whose stages all return normally on
this run (no stage raises, none returns the drop-signal `None`),
`process(m)` is the result of applying every stage function to `m` in the
order the stages were added. -/
theorem chain_process_eq_composition (c : ProcessorChain α ε) (m : α)
    (hok : allStagesOk c.processors m = true) :
    c.process (some m) = some (applyStages c.processors m) := by
  unfold ProcessorChain.process
  exact processGo_of_allStagesOk c.error_handler m c.processors m hok

/-- A two-stage arithmetic chain used as the concrete witness input. -/
def demoChain : ProcessorChain Nat Unit :=
  { name := "demo"
    processors := [(fun n => .ok (some (n + 1)), "inc"), (fun n => .ok (some (n * 2)), "dbl")]
    error_handler := none }

/-- Witness for C1: on the concrete chain `demoChain` and input `3`, all
stages return normally and `process` yields the composed result `some 8`. -/
theorem chain_process_eq_composition_witness :
    allStagesOk demoChain.processors 3 = true ∧
      demoChain.process (some 3) = some (applyStages demoChain.processors 3) :=
  ⟨by rfl, chain_process_eq_composition demoChain 3 (by rfl)⟩

/-- C3: a drop-signal short-circuits the chain.  If the input is already the
drop-signal, `process` returns it at once having invoked nothing; and if the
chain is `pre ++ rest` and running `pre` ends with the drop-signal, the whole
run returns the drop-signal with exactly the trace of `pre`: no stage of
`rest` is ever invoked. -/
theorem chain_drop_short_circuits (c : ProcessorChain α ε) (m : α)
    (pre rest : List (StageEntry α ε)) :
    c.processT none = (none, ⟨[], []⟩) ∧
      (c.processors = pre ++ rest →
        (processGoT c.error_handler m pre (some m)).1 = none →
        c.processT (some m) = (none, (processGoT c.error_handler m pre (some m)).2)) := by
  refine ⟨rfl, fun hsplit hdrop => ?_⟩
  show processGoT c.error_handler m c.processors (some m) =
    (none, (processGoT c.error_handler m pre (some m)).2)
  rw [hsplit, processGoT_append, hdrop, processGoT_none]
  simp

/-- Stage of the concrete drop chain that returns `None`. -/
def dropStage : StageEntry Nat Unit := (fun _ => .ok none, "drop1")

/-- Stage of the concrete drop chain that would increment, placed after the
dropping stage. -/
def incStage : StageEntry Nat Unit := (fun n => .ok (some (n + 1)), "inc")

/-- Concrete chain whose first stage drops every message. -/
def dropChain : ProcessorChain Nat Unit :=
  { name := "dropper", processors := [dropStage, incStage], error_handler := none }

/-- Witness for C3: in `dropChain` at input `5`, the prefix `[dropStage]`
drops the message, the whole run returns the drop-signal, and the trace is
the prefix's trace alone — `incStage` was never invoked. -/
theorem chain_drop_short_circuits_witness :
    (processGoT dropChain.error_handler 5 [dropStage] (some 5)).1 = none ∧
      dropChain.processT (some 5) =
        (none, (processGoT dropChain.error_handler 5 [dropStage] (some 5)).2) :=
  ⟨by rfl, (chain_drop_short_circuits dropChain 5 [dropStage] [incStage]).2 (by rfl) (by rfl)⟩

/-- C9: `process` never propagates an exception; the two raising paths end in
the drop-signal.  If the chain is `pre ++ (p, pname) :: rest`, running `pre`
reaches `v`, and `p` raises `e` at `v`, then: with no error handler set the
result is the drop-signal, and with a handler that itself raises the result
is the drop-signal.  (In the embedding `process` is total into `Option α`:
there is no exception alternative in its result type at all.) -/
theorem chain_error_paths_drop (c : ProcessorChain α ε) (m v : α) (e : ε)
    (p : α → Except ε (Option α)) (pname : String) (pre rest : List (StageEntry α ε))
    (hsplit : c.processors = pre ++ (p, pname) :: rest)
    (hpre : processGo c.error_handler m pre (some m) = some v)
    (herr : p v = .error e) :
    (c.error_handler = none → c.process (some m) = none) ∧
      (∀ h e2, c.error_handler = some h → h m e pname = .error e2 →
        c.process (some m) = none) := by
  have key : c.process (some m) = processGo c.error_handler m ((p, pname) :: rest) (some v) := by
    show processGo c.error_handler m c.processors (some m) = _
    rw [hsplit, processGo_append, hpre]
  constructor
  · intro heh
    rw [key]
    simp [processGo, herr, heh]
  · intro h e2 heh hh
    rw [key]
    simp [processGo, herr, heh, hh]

/-- A stage that always raises. -/
def boomStage : StageEntry Nat Unit := (fun _ => .error (), "boom")

/-- Concrete chain with one raising stage and no error handler. -/
def raiseChain : ProcessorChain Nat Unit :=
  { name := "raiser", processors := [boomStage], error_handler := none }

/-- Witness for C9: `raiseChain` raises in its only stage at input `7` and,
having no handler, `process` returns the drop-signal instead of propagating. -/
theorem chain_error_paths_drop_witness :
    processGo raiseChain.error_handler 7 [] (some 7) = some 7 ∧
      boomStage.1 7 = .error () ∧ raiseChain.process (some 7) = none :=
  ⟨by rfl, by rfl,
    (chain_error_paths_drop raiseChain 7 7 () boomStage.1 "boom" [] []
      (by rfl) (by rfl) (by rfl)).1 (by rfl)⟩

/-- First stage of the C2 counterexample chain: always raises. -/
def c2Stage1 : Nat → Except Unit (Option Nat) := fun _ => .error ()

/-- Second stage of the C2 counterexample chain: increments. -/
def c2Stage2 : Nat → Except Unit (Option Nat) := fun n => .ok (some (n + 1))

/-- Error handler of the C2 counterexample chain: always returns `10`. -/
def c2Handler : Nat → Unit → String → Except Unit (Option Nat) := fun _ _ _ => .ok (some 10)

/-- Two-stage chain with an error handler, whose first stage raises. -/
def c2Chain : ProcessorChain Nat Unit :=
  { name := "c2"
    processors := [(c2Stage1, "s1"), (c2Stage2, "s2")]
    error_handler := some c2Handler }

/-- Counterexample to C2 as stated: in `c2Chain` at input `0`, stage `s1`
raises and the handler returns `some 10`, yet `process` returns `some 11`,
not the handler's return value — the stages after the failing one keep
running on the handler's result. -/
theorem chain_handler_result_not_final :
    c2Stage1 0 = .error () ∧ c2Handler 0 () "s1" = .ok (some 10) ∧
      c2Chain.process (some 0) = some 11 ∧ (some 11 : Option Nat) ≠ some 10 :=
  ⟨rfl, rfl, rfl, by decide⟩

/-- C2 amended: if the chain is `pre ++ (p, pname) :: rest`, a handler `h` is
set, running `pre` reaches `v`, and `p` raises `e` at `v`, then the handler
is invoked exactly once at that point with the original input `m` (not the
intermediate `v`), the error `e` and the stage name `pname`; if the handler
raises or returns the drop-signal the result is the drop-signal, and
otherwise its return value becomes the current message and the remaining
stages `rest` continue from it (so the final result equals the handler's
return value exactly when no stage follows the failing one). -/
theorem chain_handler_semantics (c : ProcessorChain α ε) (m v : α) (e : ε)
    (h : α → ε → String → Except ε (Option α))
    (p : α → Except ε (Option α)) (pname : String) (pre rest : List (StageEntry α ε))
    (hsplit : c.processors = pre ++ (p, pname) :: rest)
    (heh : c.error_handler = some h)
    (hpre : (processGoT c.error_handler m pre (some m)).1 = some v)
    (herr : p v = .error e) :
    c.processT (some m) =
      match h m e pname with
      | .error _ =>
          (none,
           ⟨(processGoT c.error_handler m pre (some m)).2.stage_calls ++ [(pname, v)],
            (processGoT c.error_handler m pre (some m)).2.handler_calls ++ [(m, e, pname)]⟩)
      | .ok none =>
          (none,
           ⟨(processGoT c.error_handler m pre (some m)).2.stage_calls ++ [(pname, v)],
            (processGoT c.error_handler m pre (some m)).2.handler_calls ++ [(m, e, pname)]⟩)
      | .ok (some m2) =>
          ((processGoT c.error_handler m rest (some m2)).1,
           ⟨(processGoT c.error_handler m pre (some m)).2.stage_calls ++
              (pname, v) :: (processGoT c.error_handler m rest (some m2)).2.stage_calls,
            (processGoT c.error_handler m pre (some m)).2.handler_calls ++
              (m, e, pname) :: (processGoT c.error_handler m rest (some m2)).2.handler_calls⟩) := by
  show processGoT c.error_handler m c.processors (some m) = _
  rw [hsplit, processGoT_append, hpre]
  simp only [processGoT, herr, heh]
  cases hh : h m e pname with
  | error e2 => simp [hh]
  | ok r2 =>
    cases r2 with
    | none => simp [hh]
    | some m2 => simp [hh]

/-- Witness for the amended C2: in `c2Chain` at input `0`, stage `s1` raises,
the handler is invoked with the original message `0`, returns `some 10`, and
stage `s2` continues from it, giving final result `some 11` and the recorded
handler call `(0, (), "s1")`. -/
theorem chain_handler_semantics_witness :
    c2Stage1 0 = .error () ∧
      c2Chain.processT (some 0) =
        match c2Handler 0 () "s1" with
        | .error _ =>
            (none,
             ⟨(processGoT c2Chain.error_handler 0 [] (some 0)).2.stage_calls ++ [("s1", 0)],
              (processGoT c2Chain.error_handler 0 [] (some 0)).2.handler_calls ++ [(0, (), "s1")]⟩)
        | .ok none =>
            (none,
             ⟨(processGoT c2Chain.error_handler 0 [] (some 0)).2.stage_calls ++ [("s1", 0)],
              (processGoT c2Chain.error_handler 0 [] (some 0)).2.handler_calls ++ [(0, (), "s1")]⟩)
        | .ok (some m2) =>
            ((processGoT c2Chain.error_handler 0 [(c2Stage2, "s2")] (some m2)).1,
             ⟨(processGoT c2Chain.error_handler 0 [] (some 0)).2.stage_calls ++
                ("s1", 0) ::
                  (processGoT c2Chain.error_handler 0 [(c2Stage2, "s2")] (some m2)).2.stage_calls,
              (processGoT c2Chain.error_handler 0 [] (some 0)).2.handler_calls ++
                (0, (), "s1") ::
                  (processGoT c2Chain.error_handler 0 [(c2Stage2, "s2")]
                    (some m2)).2.handler_calls⟩) :=
  ⟨rfl,
    chain_handler_semantics c2Chain 0 0 () c2Handler c2Stage1 "s1" [] [(c2Stage2, "s2")]
      (by rfl) (by rfl) (by rfl) (by rfl)⟩

/-! ## Broker consume handler (src/rabbitmq_processor.py, message_handler) -/

/-- The error raised by the decode step when the payload is not valid UTF-8
(Python `UnicodeDecodeError`, escaping `json.loads`). -/
inductive DecodeErr where
  | unicode
  deriving DecidableEq, Repr

/-- Terminal broker call issued for one delivery handle by `message_handler`:
`basic_ack` or `basic_nack(requeue=True)`. -/
inductive BrokerAction where
  | ack
  | nack_requeue
  deriving DecidableEq, Repr

/-- Observable outcome of one `message_handler` invocation: the terminal
broker call, and the list of arguments passed to `self.publish` (empty when
nothing was published). -/
structure HandlerOutcome (α : Type) where
  action : BrokerAction
  publish_calls : List α
  deriving Repr

/-- Embedding of the per-delivery body of `message_handler`
(src/rabbitmq_processor.py lines 191-247), after the decode step:
* a decode error propagates to the outer `except` which issues
  `basic_nack(requeue=True)` (lines 242-247);
* otherwise the decoded message runs through the chain (line 218);
* a non-None result is published (line 226); on publish failure the message
  is nacked with requeue and the handler returns (lines 230-234), on success
  execution falls through to `basic_ack` (line 240);
* a `None` result skips publishing and goes straight to `basic_ack`
  (lines 235-240).
`publish` abstracts `self.publish(output_queue, ...) -> bool`. -/
def message_handler (c : ProcessorChain α ε) (publish : α → Bool)
    (decoded : Except DecodeErr (Option α)) : HandlerOutcome α :=
  match decoded with
  | .error _ => ⟨.nack_requeue, []⟩
  | .ok msg =>
    match c.process msg with
    | some p => if publish p then ⟨.ack, [p]⟩ else ⟨.nack_requeue, [p]⟩
    | none => ⟨.ack, []⟩

/-- C4: when the chain result is not a drop-signal and `publish` reports
failure, `message_handler` nacks the delivery with requeue (and in
particular never acks it). -/
theorem handler_publish_failure_requeues (c : ProcessorChain α ε) (publish : α → Bool)
    (msg : Option α) (p : α) (hres : c.process msg = some p)
    (hpub : publish p = false) :
    message_handler c publish (.ok msg) = ⟨.nack_requeue, [p]⟩ ∧
      (message_handler c publish (.ok msg)).action ≠ .ack := by
  have : message_handler c publish (.ok msg) = ⟨.nack_requeue, [p]⟩ := by
    simp [message_handler, hres, hpub]
  exact ⟨this, by simp [this]⟩

/-- Chain with no stages: `process` is the identity on non-None messages. -/
def idChain : ProcessorChain Nat Unit :=
  { name := "idchain", processors := [], error_handler := none }

/-- Witness for C4: with the identity chain at message `5` and a publish
that always fails, the outcome is nack-with-requeue, never ack. -/
theorem handler_publish_failure_requeues_witness :
    idChain.process (some 5) = some 5 ∧
      message_handler idChain (fun _ => false) (.ok (some 5)) = ⟨.nack_requeue, [5]⟩ ∧
      (message_handler idChain (fun _ => false) (.ok (some 5))).action ≠ .ack :=
  ⟨rfl,
    (handler_publish_failure_requeues idChain (fun _ => false) (some 5) 5 rfl rfl).1,
    (handler_publish_failure_requeues idChain (fun _ => false) (some 5) 5 rfl rfl).2⟩

/-- C5: when the chain returns the drop-signal, `message_handler` acks the
delivery and never calls `publish`. -/
theorem handler_drop_acks_without_publish (c : ProcessorChain α ε) (publish : α → Bool)
    (msg : Option α) (hres : c.process msg = none) :
    message_handler c publish (.ok msg) = ⟨.ack, []⟩ := by
  simp [message_handler, hres]

/-- Witness for C5: `dropChain` drops message `5`; the handler acks and the
publish-call list is empty. -/
theorem handler_drop_acks_without_publish_witness :
    dropChain.process (some 5) = none ∧
      message_handler dropChain (fun _ => true) (.ok (some 5)) = ⟨.ack, []⟩ :=
  ⟨rfl, handler_drop_acks_without_publish dropChain (fun _ => true) (some 5) rfl⟩

/-! ## Reconnection backoff (src/rabbitmq_processor.py, _reconnect) -/

/-- The backoff computation of `ChainedRabbitMQProcessor._reconnect`
(src/rabbitmq_processor.py lines 339 and 358):
`min(delay * (2 ** (self._reconnect_attempt - 1)), 300)`, with
`self._reconnect_attempt` already incremented to the current attempt number.
`delay` is the method's parameter, default 5. -/
def backoffDelay (delay attempt : Nat) : Nat :=
  min (delay * 2 ^ (attempt - 1)) 300

/-- The waits observed before attempts `1..n` of an uninterrupted run of
failed reconnections starting from `_reconnect_attempt = 0` (the value
`connect()` resets it to on success): the counter is incremented before each
wait, so attempt `i+1` waits `backoffDelay 5 (i+1)`. -/
def reconnectDelays (n : Nat) : List Nat :=
  (List.range n).map (fun i => backoffDelay 5 (i + 1))

/-- C6: with base 5 and cap 300, attempts 1..7 wait 5,10,20,40,80,160,300
seconds; successive delays never decrease; and no delay exceeds 300. -/
theorem reconnect_backoff_schedule :
    reconnectDelays 7 = [5, 10, 20, 40, 80, 160, 300] ∧
      (∀ k : Nat, backoffDelay 5 k ≤ backoffDelay 5 (k + 1)) ∧
      (∀ k : Nat, backoffDelay 5 k ≤ 300) := by
  refine ⟨by decide, fun k => ?_, fun k => min_le_right _ _⟩
  unfold backoffDelay
  have h2 : (2 : Nat) ^ (k - 1) ≤ 2 ^ (k + 1 - 1) :=
    Nat.pow_le_pow_right (by norm_num) (by omega)
  exact min_le_min (Nat.mul_le_mul_left 5 h2) le_rfl

/-! ## Connection lifecycle and subscription table
(src/rabbitmq_processor.py, ChainedRabbitMQProcessor) -/

/-- The mutable state of a `ChainedRabbitMQProcessor` that the lifecycle
claims are about: `is_connected`, `_reconnect_attempt`, `_running`, and the
subscription dict `_subscriptions` (a Python dict keyed by input queue name,
modelled as an association list in insertion order; `σ` is the stored
`(processor_chain, output_queue, options)` tuple, opaque here). -/
structure ProcState (σ : Type) where
  is_connected : Bool
  reconnect_attempt : Nat
  running : Bool
  subscriptions : List (String × σ)

/-- Python dict assignment `d[k] = v`: overwrite in place when the key
exists (keeping its position), else append at the end. -/
def dictInsert (k : String) (v : σ) : List (String × σ) → List (String × σ)
  | [] => [(k, v)]
  | (k2, v2) :: rest => if k2 = k then (k2, v) :: rest else (k2, v2) :: dictInsert k v rest

/-- Python dict lookup `d.get(k)`. -/
def dictGet (k : String) : List (String × σ) → Option σ
  | [] => none
  | (k2, v2) :: rest => if k2 = k then some v2 else dictGet k rest

/-- Embedding of `process_with_chain(input_queue, ...)` on its connected
path (src/rabbitmq_processor.py lines 176-272; this is the path taken both
by a direct call while connected and by every replay from
`_restore_subscriptions`, which runs right after `connect()` set
`is_connected = True`):
* first statement of the `try` block stores the subscription
  (line 178) — before any queue declaration or consumer registration;
* the broker operations that follow (queue declares, `basic_qos`,
  `basic_consume`, consumer-thread start) are summarised by `brokerOk`;
  when one of them raises, the `except` arms set `is_connected = False`
  (lines 266-272) — the stored entry is not removed. -/
def process_with_chain_connected (brokerOk : Bool) (q : String) (d : σ)
    (s : ProcState σ) : ProcState σ :=
  let s1 := { s with subscriptions := dictInsert q d s.subscriptions }
  if brokerOk then s1 else { s1 with is_connected := false }

/-- `_restore_subscriptions` (src/rabbitmq_processor.py lines 88-94): calls
`process_with_chain(queue, chain, output_queue, options)` for each stored
entry in dict order.  `subOk q` tells whether the broker operations of the
replayed subscribe for queue `q` succeed.  Modelled along the code path on
which each replay starts connected (iteration runs over the entries present
when restore begins; each replay re-stores the same entry, so the dict keys
never change mid-iteration). -/
def restoreSubs (subOk : String → Bool) : List (String × σ) → ProcState σ → ProcState σ
  | [], s => s
  | (q, d) :: rest, s => restoreSubs subOk rest (process_with_chain_connected (subOk q) q d s)

/-- `connect()` (src/rabbitmq_processor.py lines 51-86).  `brokerOk`
abstracts whether `pika.BlockingConnection` succeeds.  On success the code
sets `is_connected = True`, resets `_reconnect_attempt = 0`, replays every
stored subscription via `_restore_subscriptions`, and returns `True`.  On
failure the `except` arms return `False` and touch no state.  The third
component of the result lists the `process_with_chain` replay invocations
(queue, stored data) made by `_restore_subscriptions`, in order. -/
def connect (brokerOk : Bool) (subOk : String → Bool) (s : ProcState σ) :
    Bool × ProcState σ × List (String × σ) :=
  if brokerOk then
    let s1 : ProcState σ :=
      { s with is_connected := true, reconnect_attempt := 0 }
    (true, restoreSubs subOk s1.subscriptions s1, s1.subscriptions)
  else
    (false, s, [])

/-- `close()` (src/rabbitmq_processor.py lines 361-405) as it acts on the
modelled state: sets `_running = False` and `is_connected = False`; it never
touches `_subscriptions`. -/
def close (s : ProcState σ) : ProcState σ :=
  { s with running := false, is_connected := false }

/-- `dictInsert` stores the new binding. -/
theorem dictGet_dictInsert_self (k : String) (v : σ) (l : List (String × σ)) :
    dictGet k (dictInsert k v l) = some v := by
  induction l with
  | nil => simp [dictInsert, dictGet]
  | cons hd rest ih =>
    obtain ⟨k2, v2⟩ := hd
    by_cases hk : k2 = k <;> simp [dictInsert, dictGet, hk, ih]

/-- `dictInsert` keeps every existing key. -/
theorem dictInsert_mem_keys (k k2 : String) (v : σ) (l : List (String × σ))
    (h : k2 ∈ l.map Prod.fst) : k2 ∈ (dictInsert k v l).map Prod.fst := by
  induction l with
  | nil => simp at h
  | cons hd rest ih =>
    obtain ⟨k3, v3⟩ := hd
    by_cases hk : k3 = k
    · simpa [dictInsert, hk] using h
    · simp only [List.map_cons, List.mem_cons] at h
      rcases h with h | h
      · simp [dictInsert, hk, h]
      · simp [dictInsert, hk, ih h]

/-- `restoreSubs` never touches the reconnect counter or the running flag. -/
theorem restoreSubs_attempt_running (subOk : String → Bool) (subs : List (String × σ))
    (s : ProcState σ) :
    (restoreSubs subOk subs s).reconnect_attempt = s.reconnect_attempt ∧
      (restoreSubs subOk subs s).running = s.running := by
  induction subs generalizing s with
  | nil => exact ⟨rfl, rfl⟩
  | cons hd rest ih =>
    obtain ⟨q, d⟩ := hd
    have := ih (process_with_chain_connected (subOk q) q d s)
    cases hb : subOk q <;>
      simpa [restoreSubs, process_with_chain_connected, hb] using this

/-- When every replayed subscribe succeeds, `restoreSubs` preserves the
connected flag. -/
theorem restoreSubs_connected (subOk : String → Bool) (subs : List (String × σ))
    (s : ProcState σ) (hok : ∀ q d, (q, d) ∈ subs → subOk q = true)
    (hc : s.is_connected = true) :
    (restoreSubs subOk subs s).is_connected = true := by
  induction subs generalizing s with
  | nil => exact hc
  | cons hd rest ih =>
    obtain ⟨q, d⟩ := hd
    have hq : subOk q = true := hok q d (by simp)
    refine ih (process_with_chain_connected (subOk q) q d s)
      (fun q2 d2 h2 => hok q2 d2 (by simp [h2])) ?_
    simp [process_with_chain_connected, hq, hc]

/-- C7: `connect()` behaviour.
On broker success: it returns `True`; it replays `process_with_chain` once
per stored subscription, in order (the replay-call list is exactly the
subscription list, and when the stored queue names are distinct each queue
is replayed exactly once); it resets the reconnect-attempt counter to 0; and
when the replayed subscribes succeed, the final state is connected.
On broker failure: it returns `False` with the state untouched (hence still
disconnected) and no replay — the `except` arms return instead of raising. -/
theorem connect_success_and_failure (σ : Type) (subOk : String → Bool) (s : ProcState σ) :
    (connect true subOk s).1 = true ∧
      (connect true subOk s).2.2 = s.subscriptions ∧
      (connect true subOk s).2.1.reconnect_attempt = 0 ∧
      ((∀ q d, (q, d) ∈ s.subscriptions → subOk q = true) →
        (connect true subOk s).2.1.is_connected = true) ∧
      ((s.subscriptions.map Prod.fst).Nodup →
        ∀ q, q ∈ s.subscriptions.map Prod.fst →
          ((connect true subOk s).2.2.map Prod.fst).count q = 1) ∧
      connect (σ := σ) false subOk s = (false, s, []) := by
  refine ⟨rfl, rfl, ?_, ?_, ?_, rfl⟩
  · exact (restoreSubs_attempt_running subOk s.subscriptions _).1
  · intro hok
    exact restoreSubs_connected subOk s.subscriptions _ hok rfl
  · intro hnd q hq
    exact List.count_eq_one_of_mem hnd hq

/-- A concrete disconnected state with two stored subscriptions, used by the
lifecycle witnesses. -/
def demoProcState : ProcState Nat :=
  { is_connected := false
    reconnect_attempt := 4
    running := true
    subscriptions := [("qa", 1), ("qb", 2)] }

/-- Witness for C7: a concrete state with two stored subscriptions.  A
successful `connect` returns `True`, replays each of the two subscriptions
exactly once in order, resets the attempt counter and is connected; a failed
`connect` returns `False` leaving the state untouched. -/
theorem connect_success_and_failure_witness :
    ((connect true (fun _ => true) demoProcState).1 = true ∧
        (connect true (fun _ => true) demoProcState).2.2 = demoProcState.subscriptions ∧
        (connect true (fun _ => true) demoProcState).2.1.reconnect_attempt = 0 ∧
        (connect true (fun _ => true) demoProcState).2.1.is_connected = true ∧
        (((connect true (fun _ => true) demoProcState).2.2.map Prod.fst).count "qa" = 1 ∧
          ((connect true (fun _ => true) demoProcState).2.2.map Prod.fst).count "qb" = 1) ∧
        connect false (fun _ => true) demoProcState = (false, demoProcState, [])) := by
  obtain ⟨h1, h2, h3, h4, h5, h6⟩ :=
    connect_success_and_failure Nat (fun _ => true) demoProcState
  refine ⟨h1, h2, h3, h4 ?_, ⟨h5 ?_ "qa" ?_, h5 ?_ "qb" ?_⟩, h6⟩
  · intro q d h
    rfl
  · decide
  · decide
  · decide
  · decide

/-- C10: the subscription table only ever grows.
`process_with_chain` (connected path) stores the entry first, so it is
recorded under its queue key whether or not the subsequent broker
operations succeed (`brokerOk` arbitrary); every previously stored queue key
survives; and `close()` leaves the table exactly as it was. -/
theorem subscriptions_only_grow (σ : Type) (brokerOk : Bool) (q : String) (d : σ)
    (s : ProcState σ) :
    dictGet q (process_with_chain_connected brokerOk q d s).subscriptions = some d ∧
      (∀ k, k ∈ s.subscriptions.map Prod.fst →
        k ∈ (process_with_chain_connected brokerOk q d s).subscriptions.map Prod.fst) ∧
      (close s).subscriptions = s.subscriptions := by
  refine ⟨?_, ?_, rfl⟩
  · cases brokerOk <;>
      simp [process_with_chain_connected, dictGet_dictInsert_self]
  · intro k hk
    cases brokerOk <;>
      simpa [process_with_chain_connected] using dictInsert_mem_keys q k d s.subscriptions hk

/-- Witness for C10: storing queue `"qc"` with failing broker operations on
the concrete two-subscription state keeps the new entry and both old keys,
and `close` leaves the table unchanged. -/
theorem subscriptions_only_grow_witness :
    dictGet "qc" (process_with_chain_connected false "qc" 3 demoProcState).subscriptions =
        some 3 ∧
      "qa" ∈ (process_with_chain_connected false "qc" 3 demoProcState).subscriptions.map
        Prod.fst ∧
      (close demoProcState).subscriptions = demoProcState.subscriptions :=
  ⟨(subscriptions_only_grow Nat false "qc" 3 demoProcState).1,
    (subscriptions_only_grow Nat false "qc" 3 demoProcState).2.1 "qa" (by decide),
    (subscriptions_only_grow Nat false "qc" 3 demoProcState).2.2⟩

/-! Payload decode step (src/rabbitmq_processor.py lines 198-204):

    try:
        message = json.loads(body)
    except json.JSONDecodeError as e:
        message = body.decode('utf-8')

CPython's `json.loads` on a bytes payload first decodes it as
`body.decode(json.detect_encoding(body), 'surrogatepass')`:
`detect_encoding` picks UTF-16/UTF-32 variants from BOM prefixes and
NUL-byte patterns in the first bytes, defaulting to UTF-8, and
`surrogatepass` additionally lets surrogate code points through.  A
`UnicodeDecodeError` from that decode is not a `json.JSONDecodeError` and
escapes the inner `except`.  When the decode succeeds but JSON parsing
fails, the fallback runs `body.decode('utf-8')` — strict UTF-8, no
detection, no surrogatepass — which can itself raise `UnicodeDecodeError`
when the detected encoding was not UTF-8 or the payload used surrogates.
Bytes are `List Nat` (each < 256 in real payloads); decoded text is the
list of its code points. -/

/-- UTF-8 continuation byte: `0x80..0xBF`. -/
def isContByte (b : Nat) : Bool := 0x80 ≤ b && b ≤ 0xBF

/-- UTF-8 decoding of a byte sequence to its code points, per the byte-range
table of RFC 3629 (rejecting overlong forms and code points above
`0x10FFFF`), as CPython's utf-8 codec.  `sp` selects the `surrogatepass`
error handler: with `sp = false` the decode is strict and the surrogate
range `0xED 0xA0..0xBF 0x80..0xBF` (code points `0xD800..0xDFFF`) is
rejected, with `sp = true` it is let through.  `none` exactly when Python
raises `UnicodeDecodeError`. -/
def utf8DecodeWith (sp : Bool) : List Nat → Option (List Nat)
  | [] => some []
  | b1 :: t =>
    if b1 ≤ 0x7F then
      (utf8DecodeWith sp t).map (fun cs => b1 :: cs)
    else if 0xC2 ≤ b1 && b1 ≤ 0xDF then
      match t with
      | b2 :: t2 =>
        if isContByte b2 then
          (utf8DecodeWith sp t2).map (fun cs => ((b1 - 0xC0) * 64 + (b2 - 0x80)) :: cs)
        else none
      | [] => none
    else if 0xE0 ≤ b1 && b1 ≤ 0xEF then
      match t with
      | b2 :: b3 :: t3 =>
        let okB2 :=
          if b1 = 0xE0 then 0xA0 ≤ b2 && b2 ≤ 0xBF
          else if b1 = 0xED then (if sp then isContByte b2 else 0x80 ≤ b2 && b2 ≤ 0x9F)
          else isContByte b2
        if okB2 && isContByte b3 then
          (utf8DecodeWith sp t3).map (fun cs =>
            ((b1 - 0xE0) * 4096 + (b2 - 0x80) * 64 + (b3 - 0x80)) :: cs)
        else none
      | _ => none
    else if 0xF0 ≤ b1 && b1 ≤ 0xF4 then
      match t with
      | b2 :: b3 :: b4 :: t4 =>
        let okB2 :=
          if b1 = 0xF0 then 0x90 ≤ b2 && b2 ≤ 0xBF
          else if b1 = 0xF4 then 0x80 ≤ b2 && b2 ≤ 0x8F
          else isContByte b2
        if okB2 && isContByte b3 && isContByte b4 then
          (utf8DecodeWith sp t4).map (fun cs =>
            ((b1 - 0xF0) * 262144 + (b2 - 0x80) * 4096 + (b3 - 0x80) * 64 + (b4 - 0x80)) :: cs)
        else none
      | _ => none
    else none

/-- Strict UTF-8 decoding: Python's `body.decode('utf-8')`, the fallback at
src/rabbitmq_processor.py line 204. -/
def utf8Decode : List Nat → Option (List Nat) := utf8DecodeWith false

/-- One-unit-at-a-time core of UTF-16 decoding with the `surrogatepass`
error handler.  Bytes are paired into 16-bit units (`be` selects
big-endian); `pending` holds a high surrogate waiting for its low half.
A high surrogate followed by a low one yields the supplementary code point;
a lone surrogate (high not followed by a low, or an isolated low) is let
through by `surrogatepass`; a trailing odd byte raises (`none`). -/
def utf16Go (be : Bool) (pending : Option Nat) : List Nat → Option (List Nat)
  | [] =>
    match pending with
    | none => some []
    | some u => some [u]
  | [_] => none
  | a :: b :: rest =>
    let u2 := if be then a * 256 + b else b * 256 + a
    match pending with
    | some u =>
      if 0xDC00 ≤ u2 && u2 ≤ 0xDFFF then
        (utf16Go be none rest).map (fun cs =>
          (0x10000 + (u - 0xD800) * 1024 + (u2 - 0xDC00)) :: cs)
      else if 0xD800 ≤ u2 && u2 ≤ 0xDBFF then
        (utf16Go be (some u2) rest).map (fun cs => u :: cs)
      else
        (utf16Go be none rest).map (fun cs => u :: u2 :: cs)
    | none =>
      if 0xD800 ≤ u2 && u2 ≤ 0xDBFF then utf16Go be (some u2) rest
      else (utf16Go be none rest).map (fun cs => u2 :: cs)

/-- UTF-16 decoding with the `surrogatepass` error handler, as Python's
`b.decode('utf-16-be' or 'utf-16-le', 'surrogatepass')`. -/
def utf16DecodeSp (be : Bool) (l : List Nat) : Option (List Nat) :=
  utf16Go be none l

/-- UTF-32 decoding with the `surrogatepass` error handler: groups of four
bytes (`be` selects big-endian) yield one code point each, surrogate code
points are let through, code points above `0x10FFFF` and a truncated final
group raise (`none`). -/
def utf32DecodeSp (be : Bool) : List Nat → Option (List Nat)
  | [] => some []
  | a :: b :: c :: d :: rest =>
    let u :=
      if be then ((a * 256 + b) * 256 + c) * 256 + d
      else ((d * 256 + c) * 256 + b) * 256 + a
    if u ≤ 0x10FFFF then (utf32DecodeSp be rest).map (fun cs => u :: cs) else none
  | _ => none

/-- The encodings `json.detect_encoding` can return. -/
inductive JsonEnc where
  | utf8
  | utf8sig
  | utf16
  | utf16be
  | utf16le
  | utf32
  | utf32be
  | utf32le
  deriving DecidableEq, Repr

/-- Verbatim port of CPython's `json.detect_encoding(b)`: UTF-32 BOMs
(`00 00 FE FF`, `FF FE 00 00`) first, then UTF-16 BOMs (`FE FF`, `FF FE`),
then the UTF-8 BOM (`EF BB BF`); with no BOM, NUL-byte patterns in the
first four bytes (or in both bytes of a two-byte payload) select a
UTF-16/UTF-32 variant; default `utf-8`. -/
def detectEncoding (b : List Nat) : JsonEnc :=
  match b with
  | 0x00 :: 0x00 :: 0xFE :: 0xFF :: _ => .utf32
  | 0xFF :: 0xFE :: 0x00 :: 0x00 :: _ => .utf32
  | 0xFE :: 0xFF :: _ => .utf16
  | 0xFF :: 0xFE :: _ => .utf16
  | 0xEF :: 0xBB :: 0xBF :: _ => .utf8sig
  | b0 :: b1 :: b2 :: b3 :: _ =>
    if b0 = 0 then (if b1 ≠ 0 then .utf16be else .utf32be)
    else if b1 = 0 then (if b2 ≠ 0 ∨ b3 ≠ 0 then .utf16le else .utf32le)
    else .utf8
  | [b0, b1] =>
    if b0 = 0 then .utf16be
    else if b1 = 0 then .utf16le
    else .utf8
  | _ => .utf8

/-- Python's `b.decode(enc, 'surrogatepass')` for the encodings
`detect_encoding` returns: `utf-8-sig` strips one leading `EF BB BF`;
the BOM-bearing `utf-16`/`utf-32` codecs read endianness from, and strip,
the leading BOM (`detect_encoding` returns them only when it is present;
without one the codec falls back to the platform's little-endian order). -/
def pyDecodeSp (enc : JsonEnc) (b : List Nat) : Option (List Nat) :=
  match enc with
  | .utf8 => utf8DecodeWith true b
  | .utf8sig =>
    match b with
    | 0xEF :: 0xBB :: 0xBF :: rest => utf8DecodeWith true rest
    | _ => utf8DecodeWith true b
  | .utf16 =>
    match b with
    | 0xFE :: 0xFF :: rest => utf16DecodeSp true rest
    | 0xFF :: 0xFE :: rest => utf16DecodeSp false rest
    | _ => utf16DecodeSp false b
  | .utf16be => utf16DecodeSp true b
  | .utf16le => utf16DecodeSp false b
  | .utf32 =>
    match b with
    | 0x00 :: 0x00 :: 0xFE :: 0xFF :: rest => utf32DecodeSp true rest
    | 0xFF :: 0xFE :: 0x00 :: 0x00 :: rest => utf32DecodeSp false rest
    | _ => utf32DecodeSp false b
  | .utf32be => utf32DecodeSp true b
  | .utf32le => utf32DecodeSp false b

/-- The decode performed inside `json.loads(body)` for a bytes payload:
`body.decode(detect_encoding(body), 'surrogatepass')`.  `none` exactly when
`json.loads` raises `UnicodeDecodeError`. -/
def jsonLoadsDecode (b : List Nat) : Option (List Nat) :=
  pyDecodeSp (detectEncoding b) b

/-- The message produced by the decode step: either the raw decoded text
(JSON parse failed) or a parsed JSON value (`J` is the JSON value type,
opaque here). -/
inductive PyMsg (J : Type) where
  | raw : List Nat → PyMsg J
  | json : J → PyMsg J

/-- The decode step of `message_handler` (src/rabbitmq_processor.py lines
198-204).  `jsonParse` abstracts JSON parsing of the decoded text:
`none` = `json.JSONDecodeError`, `some none` = the document `null`
(Python `None`), `some (some j)` = any other document.
* the decode inside `json.loads` fails -> `UnicodeDecodeError` escapes the
  inner `except json.JSONDecodeError` (`.error`);
* JSON parses -> that value is the message;
* JSON fails -> the fallback `body.decode('utf-8')` runs: strict UTF-8
  failure raises out of the step (`.error`), success yields the raw text.
The `.ok` payload is the message handed to the pipeline (`none` being
Python `None`). -/
def decodeStep (jsonParse : List Nat → Option (Option J)) (body : List Nat) :
    Except DecodeErr (Option (PyMsg J)) :=
  match jsonLoadsDecode body with
  | none => .error .unicode
  | some s =>
    match jsonParse s with
    | some v => .ok (v.map PyMsg.json)
    | none =>
      match utf8Decode body with
      | none => .error .unicode
      | some s2 => .ok (some (.raw s2))

/-- Counterexample to C8 as stated: the decode step does throw on some
payloads.  The payload `00 61 62 63 64` (five bytes, valid strict UTF-8) is
mis-detected as UTF-16-BE by `json.detect_encoding` and its odd length makes
the decode inside `json.loads` raise `UnicodeDecodeError`, which escapes the
inner `except`; the one-byte payload `FF` likewise raises from the UTF-8
decode inside `json.loads`.  (Conversely the non-UTF-8 payload
`FF FE 31 00` decodes via its UTF-16 BOM to the text `1`.) -/
theorem decode_step_can_throw :
    decodeStep (J := Unit) (fun _ => none) [0x00, 0x61, 0x62, 0x63, 0x64] =
        .error .unicode ∧
      utf8Decode [0x00, 0x61, 0x62, 0x63, 0x64] = some [0x00, 0x61, 0x62, 0x63, 0x64] ∧
      decodeStep (J := Unit) (fun _ => none) [0xFF] = .error .unicode ∧
      jsonLoadsDecode [0xFF, 0xFE, 0x31, 0x00] = some [0x31] :=
  ⟨rfl, rfl, rfl, rfl⟩

/-- C8 amended: the decode step never throws on a payload that survives both
decodes it can perform — the decode inside `json.loads`
(`body.decode(detect_encoding(body), 'surrogatepass')`) and, for the
JSON-failure fallback, the strict `body.decode('utf-8')`.  On such payloads
a JSON parse failure is passed into the pipeline as raw text instead of
raising. -/
theorem decode_step_total_when_decodes_ok (J : Type)
    (jsonParse : List Nat → Option (Option J)) (body s s2 : List Nat)
    (hsp : jsonLoadsDecode body = some s) (hstrict : utf8Decode body = some s2) :
    ∃ m, decodeStep jsonParse body = .ok m := by
  unfold decodeStep
  rw [hsp]
  cases hj : jsonParse s with
  | none => exact ⟨some (.raw s2), by simp [hj, hstrict]⟩
  | some v => exact ⟨v.map PyMsg.json, by simp [hj]⟩

/-- Witness for the amended C8: the two-byte ASCII payload `68 69` (the text
`hi`) is detected as UTF-8, survives both decodes, and the decode step
returns normally even though JSON parsing fails. -/
theorem decode_step_total_when_decodes_ok_witness :
    jsonLoadsDecode [0x68, 0x69] = some [0x68, 0x69] ∧
      utf8Decode [0x68, 0x69] = some [0x68, 0x69] ∧
      ∃ m, decodeStep (J := Unit) (fun _ => none) [0x68, 0x69] = .ok m :=
  ⟨by rfl, by rfl,
    decode_step_total_when_decodes_ok Unit (fun _ => none) [0x68, 0x69]
      [0x68, 0x69] [0x68, 0x69] (by rfl) (by rfl)⟩

end NxEditor
